import Mathlib

/-!
Verification of the unclutter DOM style-rewriting pipeline.

The development shallowly embeds two source units:
* `src/source/content-script/style-changes/iterateDOM.js` — the DOM traversal
  that collects text containers, synthesizes selectors, generates override
  rules and background color samples, plus its restore counterpart
  `unPatchDomTransform`.
* `src/unnamed/part_000` — the postcss-based external CSS rewriter
  (`getCssOverride` and its plugins).

JavaScript strings are embedded as `String`/`List Char`; machine floats used
for breakpoint scaling are embedded as `ℚ` with `Math.round` made explicit;
element identity is a `Nat` and the live document is a `Doc` record of
attribute/parent lookups; the mutable traversal state (visited set, collected
selectors, classList mutations, random-id counter) is threaded explicitly
through a `TraversalState`.
-/

namespace Unclutter

/-! ### String helpers mirroring the JavaScript string operations -/

/-- `startsWithChars pat s` is `String.prototype.startsWith`: `pat` is a
prefix of `s` (on explicit character lists). -/
def startsWithChars : List Char → List Char → Bool
  | [], _ => true
  | _ :: _, [] => false
  | a :: as, b :: bs => a == b && startsWithChars as bs

/-- `hasSubChars pat s` is `String.prototype.includes`: `pat` occurs as a
contiguous substring of `s`. -/
def hasSubChars (pat : List Char) : List Char → Bool
  | [] => startsWithChars pat []
  | c :: t => startsWithChars pat (c :: t) || hasSubChars pat t

/-- JavaScript `s.includes(sub)`. -/
def strContains (s sub : String) : Bool := hasSubChars sub.data s.data

/-- JavaScript `s.startsWith(p)`. -/
def jsStartsWith (s p : String) : Bool := startsWithChars p.data s.data

/-- JavaScript `s.replace(pat, rep)` with a string pattern: replace the first
occurrence of `pat` (if `pat` is empty, JS inserts `rep` at position 0). -/
def replaceFirstChars : List Char → List Char → List Char → List Char
  | [], pat, rep => if startsWithChars pat [] then rep else []
  | c :: t, pat, rep =>
    if startsWithChars pat (c :: t) then rep ++ (c :: t).drop pat.length
    else c :: replaceFirstChars t pat rep

/-- Decimal digit run to number, as `parseInt` on an all-digit string. -/
def digitsToNat (l : List Char) : Nat := l.foldl (fun n c => n * 10 + (c.toNat - 48)) 0

/-- Maximal digit runs of a character list, in order: the successive matches
of the regex `([0-9]+)` with the `g` flag. `acc` holds the (reversed) run
being read. -/
def digitRunsAux : List Char → List Char → List (List Char)
  | [], acc => if acc.isEmpty then [] else [acc.reverse]
  | c :: t, acc =>
    if c.isDigit then digitRunsAux t (c :: acc)
    else if acc.isEmpty then digitRunsAux t []
    else acc.reverse :: digitRunsAux t []

def digitRuns (l : List Char) : List (List Char) := digitRunsAux l []

/-! ### External CSS rewriter (`src/unnamed/part_000`) -/

/-- `Math.round(conditionScale * oldCount)`: round half toward positive
infinity. The source multiplies a float `conditionScale` by an integer; the
embedding keeps the scale exact as a rational and computes
`⌊scale * n + 1/2⌋ = (2 * scale.num * n + scale.den) / (2 * scale.den)` on
the reduced representation (the extension's scale factors are nonnegative
page-width ratios, so `scale.num.toNat` loses nothing). -/
def jsRoundMul (conditionScale : ℚ) (oldCount : Nat) : Nat :=
  (2 * conditionScale.num.toNat * oldCount + conditionScale.den) / (2 * conditionScale.den)

/-- A postcss at-rule as the plugins see it: its name (`media`, `import`),
its params string, and the ad-hoc `alreadyProcessed` marker the source stores
on the rule object (absent = `false`). -/
structure CssAtRule where
  name : String
  params : String
  alreadyProcessed : Bool
deriving DecidableEq, Repr

/-- A postcss declaration: property, value, and the `alreadyProcessed`
marker. -/
structure CssDecl where
  prop : String
  value : String
  alreadyProcessed : Bool
deriving DecidableEq, Repr

/-- One iteration of the `scaleBreakpointsPlugin` loop body: replace the
first occurrence of the decimal rendering of the matched run by the scaled
count. `condition.replace(oldCount.toString(), newCount.toString())`
searches from the start of the evolving string, not at the match position. -/
def scaleOneRun (conditionScale : ℚ) (condition : List Char) (run : List Char) : List Char :=
  let oldCount := digitsToNat run
  let newCount := jsRoundMul conditionScale oldCount
  replaceFirstChars condition (Nat.repr oldCount).data (Nat.repr newCount).data

/-- The body of `scaleBreakpointsPlugin`'s `AtRule` handler on the params of
a `@media` rule: iterate the matches of `([0-9]+)` over the original params,
folding the first-occurrence replacement over the evolving condition. -/
def scaleMediaParams (conditionScale : ℚ) (params : String) : String :=
  ⟨(digitRuns params.data).foldl (scaleOneRun conditionScale) params.data⟩

/-- `scaleBreakpointsPlugin(conditionScale).AtRule` from `src/unnamed/part_000`:
only `@media` rules are touched, rules already marked processed are skipped,
otherwise the params are rescaled and the rule is marked processed. -/
def scaleBreakpointsPluginAtRule (conditionScale : ℚ) (rule : CssAtRule) : CssAtRule :=
  if rule.name == "media" then
    if rule.alreadyProcessed then rule
    else { rule with
            params := scaleMediaParams conditionScale rule.params
            alreadyProcessed := true }
  else rule

/-! ### URL resolution (browser `URL` constructor)

The source calls `new URL(url, baseUrl).href`. The `URL` constructor is a
platform builtin, not code of this repository. -/

/-- Split a character list at each `/`. -/
def splitOnSlash : List Char → List Char → List (List Char)
  | [], acc => [acc.reverse]
  | c :: t, acc => if c = '/' then acc.reverse :: splitOnSlash t [] else splitOnSlash t (c :: acc)

/-- Dot-segment removal over path segments: `..` pops the last kept segment,
`.` is dropped. `acc` is the reversed stack of kept segments. -/
def removeDotSegmentsAux : List (List Char) → List (List Char) → List (List Char)
  | acc, [] => acc.reverse
  | acc, seg :: rest =>
    if seg = ['.'] then removeDotSegmentsAux acc rest
    else if seg = ['.', '.'] then removeDotSegmentsAux (acc.drop 1) rest
    else removeDotSegmentsAux (seg :: acc) rest

/-- Normalize an absolute path (leading `/`): remove dot segments. -/
def normalizePath (p : List Char) : List Char :=
  let segs := splitOnSlash (p.drop 1) []
  '/' :: (String.intercalate "/" ((removeDotSegmentsAux [] segs).map (fun s => (⟨s⟩ : String)))).data

/-- The characters of `path` up to and including the last `/` (the directory
a relative reference is resolved in); `/` if there is none. -/
def dirOfPath (path : List Char) : List Char :=
  ((path.reverse.dropWhile (fun c => c ≠ '/')).reverse)

/-- Modelled from the spec: the browser `URL(url, base)` constructor used to
"resolve relative references against `sourceUrl` into absolute URLs"
(spec §4.7 pass 2). The builtin is not part of the repository sources; this
model covers the http(s) cases the rewriter exercises: already-absolute
references are returned as given, scheme-relative and host-relative
references are attached to the base scheme/origin, and other references are
resolved against the base URL's directory with WHATWG dot-segment removal. -/
def resolveUrl (baseUrl relUrl : String) : String :=
  if jsStartsWith relUrl "http://" || jsStartsWith relUrl "https://" then relUrl
  else
    let p :=
      if jsStartsWith baseUrl "https://" then ("https", baseUrl.data.drop 8)
      else if jsStartsWith baseUrl "http://" then ("http", baseUrl.data.drop 7)
      else ("", baseUrl.data)
    let scheme := p.1
    let host : List Char := p.2.takeWhile (fun c => c ≠ '/')
    let basePath : List Char := p.2.dropWhile (fun c => c ≠ '/')
    let origin : List Char := scheme.data ++ "://".data ++ host
    if jsStartsWith relUrl "//" then ⟨scheme.data ++ [':'] ++ relUrl.data⟩
    else if jsStartsWith relUrl "/" then ⟨origin ++ normalizePath relUrl.data⟩
    else ⟨origin ++ normalizePath (dirOfPath basePath ++ relUrl.data)⟩

/-! ### URL-rewriting plugin (`urlRewritePlugin` in `src/unnamed/part_000`) -/

/-- The lookahead `(?!"?'?(?:data:|#|https?:\/\/))` of the declaration-value
regex: after optionally skipping a `"` and then a `'`, the remainder must not
start with `data:`, `#`, `http://` or `https://`. The candidate lists give
the decompositions the optional quote atoms can take. -/
def afterOptQuotes (l : List Char) : List (List Char) :=
  match l with
  | '\x22' :: '\x27' :: t => [l, '\x27' :: t, t]
  | '\x22' :: t => [l, t]
  | '\x27' :: t => [l, t]
  | _ => [l]

def lookaheadBlocked (l : List Char) : Bool :=
  (afterOptQuotes l).any (fun v =>
    startsWithChars "data:".data v || startsWithChars "#".data v ||
    startsWithChars "http://".data v || startsWithChars "https://".data v)

/-- Greedy opening `"?'?` of the declaration-value regex. -/
def stripOpenQuotes (l : List Char) : List Char :=
  let l1 := match l with
    | '\x22' :: t => t
    | _ => l
  match l1 with
  | '\x27' :: t => t
  | _ => l1

/-- Split at the first `)`: `some (before, after)`; `none` when there is no
`)` left, in which case the regex cannot match at this position. -/
def splitAtCloseParen : List Char → Option (List Char × List Char)
  | [] => none
  | c :: t =>
    if c = ')' then some ([], t)
    else
      match splitAtCloseParen t with
      | none => none
      | some (a, b) => some (c :: a, b)

/-- The lazy capture ends just before `"?'?\)`: strip one trailing `'`, then
one trailing `"`, from the segment before the closing paren. -/
def stripCaptureQuotes (l : List Char) : List Char :=
  let l1 := match l.getLast? with
    | some '\x27' => l.dropLast
    | _ => l
  match l1.getLast? with
  | some '\x22' => l1.dropLast
  | _ => l1

/-- All captures of `/url\((?!"?'?(?:data:|#|https?:\/\/))"?'?([^\)]*?)"?'?\)/g`
over a declaration value, in match order (`String.prototype.matchAll`).
Scanning advances one character on failure and past the closing paren on a
match; the `fuel` argument (instantiated with the value's length, an upper
bound on the number of scan steps) makes the recursion structural. -/
def urlMatchesAux : Nat → List Char → List (List Char)
  | 0, _ => []
  | _ + 1, [] => []
  | fuel + 1, c :: t =>
    if startsWithChars "url(".data (c :: t) then
      let rest := (c :: t).drop 4
      if lookaheadBlocked rest then urlMatchesAux fuel t
      else
        match splitAtCloseParen (stripOpenQuotes rest) with
        | none => urlMatchesAux fuel t
        | some (content, remainder) => stripCaptureQuotes content :: urlMatchesAux fuel remainder
    else urlMatchesAux fuel t

def urlMatches (value : List Char) : List (List Char) := urlMatchesAux value.length value

/-- `urlRewritePlugin(baseUrl).Declaration` from `src/unnamed/part_000`:
values not starting with `url(` are untouched; already-processed values and
`url(data:` values return early; otherwise each regex capture is resolved
against `baseUrl` and substituted by a first-occurrence string replace, and
the declaration is marked processed. -/
def urlRewritePluginDeclaration (baseUrl : String) (decl : CssDecl) : CssDecl :=
  if jsStartsWith decl.value "url(" then
    if decl.alreadyProcessed then decl
    else if jsStartsWith decl.value "url(data:" then decl
    else
      let newValue :=
        (urlMatches decl.value.data).foldl
          (fun v url => replaceFirstChars v url (resolveUrl baseUrl ⟨url⟩).data)
          decl.value.data
      { decl with value := ⟨newValue⟩, alreadyProcessed := true }
  else decl

/-- The full-match list of `rule.params.match(/"?'?([^\)]*?)"?'?\)/g)`: since
every atom but `\)` is optional and the lazy capture excludes `)`, the
successive full matches are exactly the chunks of `params` each ending at the
next `)`; trailing text with no `)` yields no further match. -/
def importChunks : List Char → List Char → List (List Char)
  | [], _ => []
  | c :: t, acc =>
    if c = ')' then (acc.reverse ++ [c]) :: importChunks t []
    else importChunks t (c :: acc)

/-- `urlRewritePlugin(baseUrl).AtRule` from `src/unnamed/part_000`: on an
`@import` rule the source reads `match(...)[1]` — index 1 of the *full-match*
array (the regex result with the `g` flag carries no capture groups) — so
`url` is `undefined` unless the params contain two `)`-terminated chunks.
JavaScript then stringifies `undefined` both in `new URL(url, baseUrl)` and
in `params.replace(url, ...)` as the literal text `undefined`. -/
def urlRewritePluginAtRule (baseUrl : String) (rule : CssAtRule) : CssAtRule :=
  if rule.name == "import" then
    let chunks := importChunks rule.params.data []
    let url : Option (List Char) := chunks.get? 1
    let urlStr : List Char := url.getD "undefined".data
    let absoluteUrl := resolveUrl baseUrl ⟨urlStr⟩
    { rule with params := ⟨replaceFirstChars rule.params.data urlStr absoluteUrl.data⟩ }
  else rule

/-! ### The DOM model for `iterateDOM.js`

Element identity is a `Nat`; a `Doc` gives each element its attributes and
computed-style snapshot, the `parentElement` link, the identity of
`document.body`, and the stream of `Math.random().toString().slice(2)`
identifiers drawn by `_getNodeSelector`. -/

/-- A DOM element's attributes and computed-style snapshot as read by
`iterateDOM.js`: `tagName` (uppercase, as the DOM reports it), `className`,
`id`, presence of the `data-language` attribute, the computed `display`,
`flex-direction` and `background-color`, and `offsetHeight`. -/
structure Element where
  tagName : String
  className : String
  id : String
  hasDataLanguage : Bool
  display : String
  flexDirection : String
  backgroundColor : String
  offsetHeight : Nat
deriving DecidableEq, Repr

structure Doc where
  elems : Nat → Element
  parent : Nat → Option Nat
  bodyId : Nat
  rand : Nat → String

/-- The mutable state of one `iterateDOM` run: the three collected lists, the
`seenNodes` set (as the list of added members, newest first), the record of
every `node.classList.add(containerId)` call performed by `_getNodeSelector`
(element, class) in call order — the random container ids are fresh per call,
so this is the set of generated classes carried by each element — and the
position in the random-identifier stream. -/
structure TraversalState where
  containerSelectors : List String
  overrideCssDeclarations : List String
  backgroundColors : List String
  seenNodes : List Nat
  addedClasses : List (Nat × String)
  randCounter : Nat
deriving DecidableEq, Repr

def initState : TraversalState :=
  { containerSelectors := []
    overrideCssDeclarations := []
    backgroundColors := []
    seenNodes := []
    addedClasses := []
    randCounter := 0 }

/-- `Set.prototype.has` on the embedded visited set. -/
def listHas : List Nat → Nat → Bool
  | [], _ => false
  | x :: t, n => x == n || listHas t n

/-- Boolean no-duplicates predicate on the visited set. -/
def noDupB : List Nat → Bool
  | [] => true
  | x :: t => !listHas t x && noDupB t

/-- Number of generated classes carried by element `n`. -/
def countPairs (n : Nat) : List (Nat × String) → Nat
  | [] => 0
  | p :: t => (if p.1 == n then 1 else 0) + countPairs n t

/-- `_isAsideEquivalent` from `iterateDOM.js` lines 132–145: structural tags,
the word blocklist over `className`/`id` (case-insensitive `includes`), or a
`data-language` attribute. -/
def asideWordBlocklist : List String :=
  ["header", "footer", "aside", "sidebar", "comment", "language"]

/-- ASCII lowercasing, as `String.prototype.toLowerCase` on the ASCII tag,
class and id names the classifier compares. -/
def charToLower (c : Char) : Char :=
  if 65 ≤ c.toNat && c.toNat ≤ 90 then Char.ofNat (c.toNat + 32) else c

def strToLower (s : String) : String := ⟨s.data.map charToLower⟩

def _isAsideEquivalent (node : Element) : Bool :=
  node.tagName == "HEADER" ||
  node.tagName == "FOOTER" ||
  node.tagName == "ASIDE" ||
  node.tagName == "CODE" ||
  asideWordBlocklist.any (fun word =>
    strContains (strToLower node.className) word ||
    strContains (strToLower node.id) word) ||
  node.hasDataLanguage

/-- `_getNodeSelector` from `iterateDOM.js` lines 148–159: draw a fresh
random identifier, add `container_<id>` to the element's classList (recorded
in `addedClasses`), and build the `tag.class[id='id']` selector. Returns the
selector together with the updated state. -/
def _getNodeSelector (doc : Doc) (nodeId : Nat) (st : TraversalState) : String × TraversalState :=
  let containerId := "container_" ++ doc.rand st.randCounter
  let st := { st with
                addedClasses := st.addedClasses ++ [(nodeId, containerId)]
                randCounter := st.randCounter + 1 }
  let node := doc.elems nodeId
  let completeSelector :=
    strToLower node.tagName ++ "." ++ containerId ++
      (if node.id != "" then "[id=\x27" ++ node.id ++ "\x27]" else "")
  (completeSelector, st)

/-- `_getNodeOverrideStyles` from `iterateDOM.js` lines 171–193 (the `node`
argument of the source is unused there and omitted): a flex row container
gets a single `display: block` rule; a grid container gets the four-part
grid-neutralizing rule; everything else yields no declaration. -/
def _getNodeOverrideStyles (currentSelector : String) (activeStyle : Element) : List String :=
  (if activeStyle.display == "flex" && activeStyle.flexDirection == "row" then
    [currentSelector ++ " \x7b display: block; \x7d"]
  else []) ++
  (if activeStyle.display == "grid" then
    [currentSelector ++ " \x7b\n            display: block;\n            grid-template-columns: 1fr;\n            grid-template-areas: none;\n            column-gap: 0;\n        \x7d"]
  else [])

/-- The per-node body of the `while` loop of `iterateParents` (lines 58–75),
run after the node was marked seen and found non-aside: synthesize a
selector, record it as a text-chain container, append the override styles,
and record a non-transparent computed background color. -/
def processNode (doc : Doc) (currentElem : Nat) (st : TraversalState) : TraversalState :=
  let p := _getNodeSelector doc currentElem st
  let currentSelector := p.1
  let st := { p.2 with containerSelectors := p.2.containerSelectors ++ [currentSelector] }
  let activeStyle := doc.elems currentElem
  let st := { st with
                overrideCssDeclarations :=
                  st.overrideCssDeclarations ++ _getNodeOverrideStyles currentSelector activeStyle }
  if strContains activeStyle.backgroundColor "rgba(0, 0, 0, 0)" then st
  else { st with backgroundColors := st.backgroundColors ++ [activeStyle.backgroundColor] }

/-- The `while (currentElem !== document.body)` loop of `iterateParents`
(lines 47–78): stop at the body, stop on an already-visited node, mark
visited, stop on an aside-equivalent node, otherwise process the node and
move to the parent element. `fuel` bounds the number of iterations; a chain
that reaches the body within the fuel is unaffected by it
(`iterateParents_terminates`). -/
def whileLoop (doc : Doc) : Nat → Nat → TraversalState → TraversalState
  | 0, _, st => st
  | fuel + 1, currentElem, st =>
    if currentElem == doc.bodyId then st
    else if listHas st.seenNodes currentElem then st
    else
      let st1 := { st with seenNodes := currentElem :: st.seenNodes }
      if _isAsideEquivalent (doc.elems currentElem) then st1
      else
        let st2 := processNode doc currentElem st1
        match doc.parent currentElem with
        | none => st2
        | some par => whileLoop doc fuel par st2

/-- `iterateParents` from `iterateDOM.js` lines 38–79: if the paragraph's
parent was not yet visited, record a `<selector> > p` child-paragraph entry
for it (this runs before any aside check and without marking it visited),
then run the upward while loop from it. -/
def iterateParents (doc : Doc) (fuel : Nat) (elem : Nat) (st : TraversalState) : TraversalState :=
  let st :=
    if listHas st.seenNodes elem then st
    else
      let p := _getNodeSelector doc elem st
      { p.2 with containerSelectors := p.2.containerSelectors ++ [p.1 ++ " > p"] }
  whileLoop doc fuel elem st

/-- The `paragraphs.forEach` driver of `iterateDOM` (lines 81–89): skip
zero-height nodes, then walk upward from each remaining paragraph's parent
element. -/
def iterateDOMRun (doc : Doc) (fuel : Nat) (paragraphs : List Nat) : TraversalState :=
  (paragraphs.filter (fun p => (doc.elems p).offsetHeight != 0)).foldl
    (fun st p =>
      match doc.parent p with
      | none => st
      | some par => iterateParents doc fuel par st)
    initState

/-- JavaScript truthiness of `document.body.querySelectorAll(...)`: a
`NodeList` is an object and objects are always truthy, so the
`!paragraphs` test on line 26 of `iterateDOM.js` is false even when the
query matched nothing. -/
def nodeListIsFalsy (_nodes : List Nat) : Bool := false

/-- Lines 25–28 of `iterateDOM`: the paragraph list actually traversed,
given the results of `querySelectorAll("p, font, pre")` and of the intended
fallback `querySelectorAll("div, span")`. -/
def selectParagraphs (paragraphNodes divSpanNodes : List Nat) : List Nat :=
  if nodeListIsFalsy paragraphNodes then divSpanNodes else paragraphNodes

/-- `iterateDOM` entry: select the paragraph list, then traverse. -/
def iterateDOMFull (doc : Doc) (fuel : Nat) (paragraphNodes divSpanNodes : List Nat) :
    TraversalState :=
  iterateDOMRun doc fuel (selectParagraphs paragraphNodes divSpanNodes)

/-! ### Stylesheet injection and restore -/

/-- The injected style elements of the document, as (className, cssText)
pairs. -/
abbrev StyleSheets := List (String × String)

/-- Modelled from the spec: `createStylesheetText(css, className)` from
`style-changes/common` (not among the provided sources) materializes `css`
as a style element tagged with `className`; spec §4.6 requires inject to
replace any existing resource of the same name rather than duplicate it. -/
def createStylesheetText (styles : StyleSheets) (css className : String) : StyleSheets :=
  (styles.filter (fun s => s.1 != className)) ++ [(className, css)]

/-- `_getTextElementChainOverrideStyle` (lines 195–211): join the collected
container selectors with `", "` and attach the fixed margin/background reset
block. -/
def _getTextElementChainOverrideStyle (containerSelectors : List String) : String :=
  String.intercalate ", " containerSelectors ++
    " \x7b\n        width: 100% !important;\n        min-width: 0 !important;\n        max-width: calc(var(--lindy-pagewidth) - 2 * 40px) !important;\n        margin-left: auto !important;\n        margin-right: auto !important;\n        padding-left: 0 !important;\n        padding-right: 0 !important;\n        background: none !important;\n        border: none !important;\n        box-shadow: none !important;\n        transition: all 0.2s;\n    \x7d"

/-- `pageViewTransition` (lines 95–110): inject the text-chain override sheet
and the node-overrides sheet. -/
def pageViewTransition (st : TraversalState) (styles : StyleSheets) : StyleSheets :=
  let styles :=
    createStylesheetText styles (_getTextElementChainOverrideStyle st.containerSelectors)
      "lindy-text-chain-override"
  createStylesheetText styles (String.intercalate "\n" st.overrideCssDeclarations)
    "lindy-node-overrides"

/-- The three generated stylesheet names removed on restore. -/
def lindySheetNames : List String :=
  ["lindy-font-size", "lindy-text-chain-override", "lindy-node-overrides"]

/-- `unPatchDomTransform` (lines 116–122): remove every element carrying one
of the three generated stylesheet classes. It touches nothing else — in
particular it does not remove the `container_*` classes added to the
traversed elements. -/
def unPatchDomTransform (styles : StyleSheets) : StyleSheets :=
  styles.filter (fun s => !(lindySheetNames.contains s.1))

/-- Number of injected style resources carrying one of the generated names. -/
def countLindySheets (styles : StyleSheets) : Nat :=
  (styles.filter (fun s => lindySheetNames.contains s.1)).length

/-! ### Concrete documents for evaluation -/

/-- A plain visible block element with the browser's computed-style defaults
(`background-color` is the transparent `rgba(0, 0, 0, 0)`; computed
`flex-direction` defaults to `row` for every element). -/
def plainDiv : Element :=
  { tagName := "DIV"
    className := ""
    id := ""
    hasDataLanguage := false
    display := "block"
    flexDirection := "row"
    backgroundColor := "rgba(0, 0, 0, 0)"
    offsetHeight := 1 }

def plainBody : Element := { plainDiv with tagName := "BODY" }

def plainP : Element := { plainDiv with tagName := "P" }

/-- body 0 ← div 1 ← p 2: one visible paragraph inside one container. -/
def simpleDoc : Doc :=
  { elems := fun n => if n == 0 then plainBody else if n == 1 then plainDiv else plainP
    parent := fun n => if n == 1 then some 0 else if n == 2 then some 1 else none
    bodyId := 0
    rand := fun n => Nat.repr n }

/-- body 0 ← div 1 ← p 2 and p 3: two sibling paragraphs sharing their
direct parent, i.e. two overlapping chains whose shared ancestor is node 1. -/
def sibDoc : Doc :=
  { elems := fun n => if n == 0 then plainBody else if n == 1 then plainDiv else plainP
    parent := fun n => if n == 1 then some 0 else if n == 2 || n == 3 then some 1 else none
    bodyId := 0
    rand := fun n => Nat.repr n }

/-- body 0 ← aside-equivalent div 1 (className "sidebar") ← p 2. -/
def asideDoc : Doc :=
  { elems := fun n =>
      if n == 0 then plainBody
      else if n == 1 then { plainDiv with className := "sidebar" }
      else plainP
    parent := fun n => if n == 1 then some 0 else if n == 2 then some 1 else none
    bodyId := 0
    rand := fun n => Nat.repr n }

/-- body 0 ← div 1, no paragraph-like elements anywhere: the
`querySelectorAll("p, font, pre")` result is empty and the intended
`div, span` fallback would have returned node 1. -/
def divOnlyDoc : Doc :=
  { elems := fun n => if n == 0 then plainBody else plainDiv
    parent := fun n => if n == 1 then some 0 else none
    bodyId := 0
    rand := fun n => Nat.repr n }

/-! ### Theme variables and background color resolution -/

/-- The per-tab theme variable store, newest binding first. -/
abbrev ThemeStore := List (String × String)

/-- Modelled from the spec: the theme variable store of
`style-changes/theme` (not among the provided sources) — spec §6 describes
"a small key→value interface (`get(name)`, `set(name, value, persist?)`) for
CSS custom properties". `get` of an unset name is the empty string (the
value `getPropertyValue` reports for an unset custom property, and falsy as
the source's `!themeName` test expects). -/
def getThemeValue : ThemeStore → String → String
  | [], _ => ""
  | (k, v) :: t, name => if k == name then v else getThemeValue t name

/-- Modelled from the spec: `setCssThemeVariable(name, value, persist?)`
overwrites the variable; the persist flag only mirrors the value into
storage and has no effect on subsequent `get`s, so it is not modelled. -/
def setCssThemeVariable (store : ThemeStore) (name value : String) : ThemeStore :=
  (name, value) :: store

/-- Modelled from the spec: the theme variable names exported by
`style-changes/theme` (not among the provided sources); only their
distinctness matters here. -/
def originalBackgroundThemeVariable : String := "--lindy-original-background"

def activeColorThemeVariable : String := "--lindy-color-theme"

def backgroundColorThemeVariable : String := "--lindy-background-color"

/-- Skip ASCII spaces. -/
def skipSpaces : List Char → List Char
  | ' ' :: t => skipSpaces t
  | l => l

/-- Split a leading digit run from the rest. -/
def takeDigits : List Char → List Char × List Char
  | [] => ([], [])
  | c :: t =>
    if c.isDigit then
      let p := takeDigits t
      (c :: p.1, p.2)
    else ([], c :: t)

def parseNatPart (l : List Char) : Option (Nat × List Char) :=
  let p := takeDigits l
  if p.1.isEmpty then none else some (digitsToNat p.1, p.2)

def expectChar (c : Char) : List Char → Option (List Char)
  | [] => none
  | d :: t => if d = c then some t else none

/-- Parse `rgb(r, g, b)` (whitespace-tolerant) into its components. -/
def parseRgb (s : String) : Option (Nat × Nat × Nat) :=
  if startsWithChars "rgb(".data s.data then do
    let l := s.data.drop 4
    let (r, l) ← parseNatPart (skipSpaces l)
    let l ← expectChar ',' (skipSpaces l)
    let (g, l) ← parseNatPart (skipSpaces l)
    let l ← expectChar ',' (skipSpaces l)
    let (b, l) ← parseNatPart (skipSpaces l)
    let l ← expectChar ')' (skipSpaces l)
    if l.isEmpty then some (r, g, b) else none
  else none

/-- Modelled from the spec: `tinycolor(color).getBrightness()` — the
perceptual brightness `(r*299 + g*587 + b*114) / 1000` of the parsed color
(an unparseable color is tinycolor's invalid black, brightness 0). Scaled by
1000 to stay in integers: the source's `brightness > 230` test becomes
`getBrightness1000 > 230 * 1000`, which is exact on integer channels. -/
def getBrightness1000 (color : String) : Nat :=
  match parseRgb color with
  | none => 0
  | some (r, g, b) => r * 299 + g * 587 + b * 114

/-- Lines 249–254 of `iterateDOM.js`: pick the original color from the text
stack if set, otherwise use the body color. -/
def pickOriginalColor (bodyColor : String) : List String → String
  | [] => bodyColor
  | c :: _ => c

/-- Lines 262–267 of `iterateDOM.js`: store the picked color as the
original-background theme variable, then — when no explicit color theme is
active (the variable is unset, i.e. falsy, or `"auto"`) — also publish it as
the active background color variable. -/
def publishPicked (theme : ThemeStore) (pickedColor : String) : ThemeStore :=
  let theme2 := setCssThemeVariable theme originalBackgroundThemeVariable pickedColor
  let themeName := getThemeValue theme2 activeColorThemeVariable
  if themeName == "" || themeName == "auto" then
    setCssThemeVariable theme2 backgroundColorThemeVariable pickedColor
  else theme2

/-- `_processBackgroundColors` from `iterateDOM.js` lines 240–268: pick the
first collected sample, else the recorded original body color; clamp to
`"white"` above brightness 230; store and publish the result. -/
def _processBackgroundColors (theme : ThemeStore) (textBackgroundColors : List String) :
    ThemeStore :=
  let bodyColor := getThemeValue theme originalBackgroundThemeVariable
  let pickedColor := pickOriginalColor bodyColor textBackgroundColors
  let pickedColor := if getBrightness1000 pickedColor > 230 * 1000 then "white" else pickedColor
  publishPicked theme pickedColor

/-! ### Helper lemmas -/

theorem startsWithChars_of_append (p q l : List Char)
    (h : startsWithChars (p ++ q) l = true) : startsWithChars p l = true := by
  induction p generalizing l with
  | nil => rfl
  | cons a as ih =>
    cases l with
    | nil => simp [startsWithChars] at h
    | cons b bs =>
      simp only [List.cons_append, startsWithChars, Bool.and_eq_true] at h ⊢
      exact ⟨h.1, ih bs h.2⟩

theorem replaceFirst_of_not_found (s pat rep : List Char) (h : hasSubChars pat s = false) :
    replaceFirstChars s pat rep = s := by
  induction s with
  | nil =>
    simp only [hasSubChars] at h
    simp [replaceFirstChars, h]
  | cons c t ih =>
    simp only [hasSubChars, Bool.or_eq_false_iff] at h
    simp [replaceFirstChars, h.1, ih h.2]

theorem countPairs_append (n : Nat) (l1 l2 : List (Nat × String)) :
    countPairs n (l1 ++ l2) = countPairs n l1 + countPairs n l2 := by
  induction l1 with
  | nil => simp [countPairs]
  | cons p t ih => simp [countPairs, ih]; omega

/-- The styles injected by the traversal never survive `unPatchDomTransform`. -/
theorem countLindy_unPatch (styles : StyleSheets) :
    countLindySheets (unPatchDomTransform styles) = 0 := by
  induction styles with
  | nil => rfl
  | cons s t ih =>
    simp only [unPatchDomTransform, countLindySheets, List.filter] at *
    cases h : lindySheetNames.contains s.1
    · have hm : s.1 ∉ lindySheetNames := by simpa using h
      simp [h, hm, ih]
    · simp [h, ih]

/-! ### C3 — breakpoint scaling of media query conditions -/

/-- C3: evaluation of the breakpoint-scaling pass. The spec's own example
`(max-width: 600px)`, scale 2, becomes `(max-width: 1200px)` and re-running
on the marked rule changes nothing — but on the two-literal condition
`(max-width: 250px) and (min-width: 50px)` the first-occurrence
`condition.replace` finds the digits `50` inside the freshly written `500`,
yielding `(max-width: 1000px) and (min-width: 50px)` instead of the claimed
`(max-width: 500px) and (min-width: 100px)`: not every integer literal is
replaced with its scaled value. -/
theorem c3_breakpoint_scaling_eval :
    scaleBreakpointsPluginAtRule 2 ⟨"media", "(max-width: 600px)", false⟩ =
      ⟨"media", "(max-width: 1200px)", true⟩ ∧
    scaleBreakpointsPluginAtRule 2 ⟨"media", "(max-width: 1200px)", true⟩ =
      ⟨"media", "(max-width: 1200px)", true⟩ ∧
    scaleBreakpointsPluginAtRule 2 ⟨"media", "(max-width: 250px) and (min-width: 50px)", false⟩ =
      ⟨"media", "(max-width: 1000px) and (min-width: 50px)", true⟩ := by
  refine ⟨by decide, by decide, by decide⟩

/-! ### C7 — the dead `div, span` fallback -/

/-- C7: a document whose body holds no `p`/`font`/`pre` element is not
walked at all: `querySelectorAll` returns an empty but truthy `NodeList`, so
the `!paragraphs` fallback to `div, span` never fires and the traversal
state stays empty — while traversing the `div, span` result (node 1) would
have produced a non-empty traversal. -/
theorem c7_fallback_dead_eval :
    selectParagraphs [] [1] = [] ∧
    iterateDOMFull divOnlyDoc 4 [] [1] = initState ∧
    iterateDOMRun divOnlyDoc 4 [1] ≠ initState := by
  refine ⟨by decide, by decide, by decide⟩

/-! ### C9 — override rule generation for flex rows -/

/-- C9: a computed `display: flex` with `flex-direction: row` yields exactly
the single rule `<selector> { display: block; }`; flex containers in any
other direction, and any display value other than `flex` and `grid`, yield
no override declaration at all. -/
theorem c9_flex_row_single_rule (currentSelector : String) (activeStyle : Element) :
    (activeStyle.display = "flex" → activeStyle.flexDirection = "row" →
      _getNodeOverrideStyles currentSelector activeStyle =
        [currentSelector ++ " \x7b display: block; \x7d"]) ∧
    (activeStyle.display = "flex" → activeStyle.flexDirection ≠ "row" →
      _getNodeOverrideStyles currentSelector activeStyle = []) ∧
    (activeStyle.display ≠ "flex" → activeStyle.display ≠ "grid" →
      _getNodeOverrideStyles currentSelector activeStyle = []) := by
  refine ⟨?_, ?_, ?_⟩ <;> intro h1 h2 <;> simp [_getNodeOverrideStyles, h1, h2]

/-- C9 witness: on a concrete flex-row container with synthesized selector
`div.container_123` the generated override is exactly
`div.container_123 { display: block; }`. -/
theorem c9_flex_row_single_rule_witness :
    _getNodeOverrideStyles "div.container_123"
        { plainDiv with display := "flex", flexDirection := "row" } =
      ["div.container_123 \x7b display: block; \x7d"] :=
  (c9_flex_row_single_rule "div.container_123"
    { plainDiv with display := "flex", flexDirection := "row" }).1 rfl rfl

/-! ### C10 — declaration values not starting with `url(` are untouched -/

/-- C10: the URL-rewriting pass leaves any declaration whose value does not
begin with the literal `url(` completely unchanged, even when `url(...)`
references occur later in the value. -/
theorem c10_non_url_start_unchanged (baseUrl : String) (decl : CssDecl)
    (h : jsStartsWith decl.value "url(" = false) :
    urlRewritePluginDeclaration baseUrl decl = decl := by
  simp [urlRewritePluginDeclaration, h]

/-- C10 witness: `background: #fff url(a.png)` keeps its relative reference. -/
theorem c10_non_url_start_unchanged_witness :
    jsStartsWith "#fff url(a.png)" "url(" = false ∧
    urlRewritePluginDeclaration "https://site.com/css/a.css"
        ⟨"background", "#fff url(a.png)", false⟩ =
      ⟨"background", "#fff url(a.png)", false⟩ :=
  ⟨by decide,
   c10_non_url_start_unchanged "https://site.com/css/a.css"
     ⟨"background", "#fff url(a.png)", false⟩ (by decide)⟩

/-! ### C1 — restore after activation -/

/-- C1 (amended): after any activation — whatever the document, traversal
fuel, paragraph set and pre-existing styles — running `unPatchDomTransform`
on the styles injected by `pageViewTransition` leaves zero injected style
resources with the generated names (`lindy-font-size`,
`lindy-text-chain-override`, `lindy-node-overrides`) in the document. -/
theorem c1_restore_removes_generated_sheets (doc : Doc) (fuel : Nat) (paragraphs : List Nat)
    (styles0 : StyleSheets) :
    countLindySheets
      (unPatchDomTransform (pageViewTransition (iterateDOMRun doc fuel paragraphs) styles0)) = 0 :=
  countLindy_unPatch _

/-- C1 counterexample: on the concrete one-paragraph document, restore does
remove both injected sheets, but the two `container_*` classes added to
element 1 during the traversal are still present afterwards —
`unPatchDomTransform` removes only the style elements, so the round trip
does not leave zero generated classes as claimed. -/
theorem c1_counterexample :
    unPatchDomTransform (pageViewTransition (iterateDOMRun simpleDoc 4 [2]) []) = [] ∧
    (iterateDOMRun simpleDoc 4 [2]).addedClasses = [(1, "container_0"), (1, "container_1")] ∧
    ((iterateDOMRun simpleDoc 4 [2]).addedClasses.all
        (fun p => jsStartsWith p.2 "container_")) = true := by
  refine ⟨by decide, by decide, by decide⟩

/-! ### C4 — URL rewriting of `@import` rules and `url()` values -/

/-- C4 counterexample: the `@import` rule `@import "other.css"` (a relative
reference), rewritten against base `https://site.com/css/a.css`, comes back
completely unchanged — still relative, containing no absolute `https`
reference — because `params.match(/.../g)[1]` reads index 1 of the
full-match array, which is `undefined` here. -/
theorem c4_counterexample :
    urlRewritePluginAtRule "https://site.com/css/a.css"
        ⟨"import", "\x22other.css\x22", false⟩ =
      ⟨"import", "\x22other.css\x22", false⟩ ∧
    strContains "\x22other.css\x22" "https" = false := by
  refine ⟨by decide, by decide⟩

/-- C4 (amended): the declaration half of the URL-rewriting pass behaves as
claimed on values that begin with `url(`: the relative reference in
`url(../img/a.png)` is resolved against `https://site.com/css/a.css` to
`url(https://site.com/img/a.png)`, while `url(data:...)`, already-absolute
`url(https?://...)` and fragment `url(#...)` values keep their URL text
unchanged; `@import` rules, however, are never rewritten — with a single
`)`-group in the params and no literal `undefined` text, the rule is
returned unchanged. -/
theorem c4_url_rewriting_amended (baseUrl : String) :
    (∀ decl : CssDecl, jsStartsWith decl.value "url(data:" = true →
        urlRewritePluginDeclaration baseUrl decl = decl) ∧
    (urlRewritePluginDeclaration "https://site.com/css/a.css"
        ⟨"background-image", "url(../img/a.png)", false⟩ =
      ⟨"background-image", "url(https://site.com/img/a.png)", true⟩) ∧
    ((urlRewritePluginDeclaration "https://site.com/css/a.css"
        ⟨"background-image", "url(https://other.com/x.png)", false⟩).value =
      "url(https://other.com/x.png)") ∧
    ((urlRewritePluginDeclaration "https://site.com/css/a.css"
        ⟨"background-image", "url(#section)", false⟩).value = "url(#section)") ∧
    (∀ rule : CssAtRule, rule.name = "import" →
        (importChunks rule.params.data []).get? 1 = none →
        strContains rule.params "undefined" = false →
        urlRewritePluginAtRule baseUrl rule = rule) := by
  refine ⟨?_, by decide, by decide, by decide, ?_⟩
  · intro decl h
    have h4 : jsStartsWith decl.value "url(" = true := by
      have e : ("url(data:" : String).data = ("url(" : String).data ++ ("data:" : String).data := by
        decide
      have h9 : startsWithChars (("url(" : String).data ++ ("data:" : String).data)
          decl.value.data = true := by
        rw [← e]; exact h
      exact startsWithChars_of_append _ _ _ h9
    cases hp : decl.alreadyProcessed
    · simp [urlRewritePluginDeclaration, h4, h, hp]
    · simp [urlRewritePluginDeclaration, h4, h, hp]
  · intro rule hname hchunks hundef
    obtain ⟨rname, rparams, rproc⟩ := rule
    simp only at hname hchunks hundef
    subst hname
    have hrepl :
        replaceFirstChars rparams.data ("undefined" : String).data
          (resolveUrl baseUrl ⟨("undefined" : String).data⟩).data = rparams.data :=
      replaceFirst_of_not_found _ _ _ hundef
    simp only [urlRewritePluginAtRule]
    simp only [hchunks]
    simp only [Option.getD]
    rw [hrepl]
    rfl

/-- C4 witness: a concrete `url(data:...)` declaration is untouched, and a
concrete `@import url(x.css)` rule (one `)` group, no literal `undefined`)
is returned unchanged. -/
theorem c4_url_rewriting_amended_witness :
    urlRewritePluginDeclaration "https://site.com/css/a.css"
        ⟨"background-image", "url(data:image/png;base64,AAAA)", false⟩ =
      ⟨"background-image", "url(data:image/png;base64,AAAA)", false⟩ ∧
    urlRewritePluginAtRule "https://site.com/css/a.css" ⟨"import", "url(x.css)", false⟩ =
      ⟨"import", "url(x.css)", false⟩ :=
  ⟨(c4_url_rewriting_amended "https://site.com/css/a.css").1
      ⟨"background-image", "url(data:image/png;base64,AAAA)", false⟩ (by decide),
   (c4_url_rewriting_amended "https://site.com/css/a.css").2.2.2.2
      ⟨"import", "url(x.css)", false⟩ rfl (by decide) (by decide)⟩

/-! ### C6 — background color resolution -/

theorem getThemeValue_set_same (store : ThemeStore) (name value : String) :
    getThemeValue (setCssThemeVariable store name value) name = value := by
  simp [getThemeValue, setCssThemeVariable]

theorem getThemeValue_set_other (store : ThemeStore) (name value other : String)
    (h : (name == other) = false) :
    getThemeValue (setCssThemeVariable store name value) other = getThemeValue store other := by
  simp [getThemeValue, setCssThemeVariable, h]

theorem publishPicked_orig (theme : ThemeStore) (P : String) :
    getThemeValue (publishPicked theme P) originalBackgroundThemeVariable = P := by
  simp only [publishPicked]
  split
  · rw [getThemeValue_set_other _ _ _ _ (by decide), getThemeValue_set_same]
  · rw [getThemeValue_set_same]

theorem publishPicked_bg_auto (theme : ThemeStore) (P : String)
    (h : (getThemeValue theme activeColorThemeVariable == "" ||
          getThemeValue theme activeColorThemeVariable == "auto") = true) :
    getThemeValue (publishPicked theme P) backgroundColorThemeVariable = P := by
  simp only [publishPicked]
  rw [getThemeValue_set_other _ _ _ _
    (by decide : (originalBackgroundThemeVariable == activeColorThemeVariable) = false)]
  simp only [h, if_true]
  rw [getThemeValue_set_same]

theorem publishPicked_bg_inactive (theme : ThemeStore) (P : String)
    (h : (getThemeValue theme activeColorThemeVariable == "" ||
          getThemeValue theme activeColorThemeVariable == "auto") = false) :
    getThemeValue (publishPicked theme P) backgroundColorThemeVariable =
      getThemeValue theme backgroundColorThemeVariable := by
  simp only [publishPicked]
  rw [getThemeValue_set_other _ _ _ _
    (by decide : (originalBackgroundThemeVariable == activeColorThemeVariable) = false)]
  simp only [h, Bool.false_eq_true, if_false]
  rw [getThemeValue_set_other _ _ _ _ (by decide)]

/-- C6: the resolver picks the first background sample when one exists, else
the recorded original body color; a picked color brighter than the fixed
threshold 230 resolves to `"white"`; the result is stored as the
original-background variable, and it is published as the active background
color variable exactly when no explicit color theme is active (theme
variable unset or `"auto"`) — otherwise the background color variable is
left as it was. -/
theorem c6_background_color_resolution (theme : ThemeStore) (samples : List String) :
    (∀ c rest, samples = c :: rest →
        getThemeValue (_processBackgroundColors theme samples) originalBackgroundThemeVariable =
          (if getBrightness1000 c > 230 * 1000 then "white" else c)) ∧
    (samples = [] →
        getThemeValue (_processBackgroundColors theme samples) originalBackgroundThemeVariable =
          (if getBrightness1000 (getThemeValue theme originalBackgroundThemeVariable) >
                230 * 1000
           then "white"
           else getThemeValue theme originalBackgroundThemeVariable)) ∧
    ((getThemeValue theme activeColorThemeVariable = "" ∨
      getThemeValue theme activeColorThemeVariable = "auto") →
        getThemeValue (_processBackgroundColors theme samples) backgroundColorThemeVariable =
          getThemeValue (_processBackgroundColors theme samples)
            originalBackgroundThemeVariable) ∧
    (getThemeValue theme activeColorThemeVariable ≠ "" →
     getThemeValue theme activeColorThemeVariable ≠ "auto" →
        getThemeValue (_processBackgroundColors theme samples) backgroundColorThemeVariable =
          getThemeValue theme backgroundColorThemeVariable) := by
  refine ⟨?_, ?_, ?_, ?_⟩
  · intro c rest hs
    subst hs
    simp only [_processBackgroundColors, pickOriginalColor]
    exact publishPicked_orig theme _
  · intro hs
    subst hs
    simp only [_processBackgroundColors, pickOriginalColor]
    exact publishPicked_orig theme _
  · intro hauto
    have hb : (getThemeValue theme activeColorThemeVariable == "" ||
        getThemeValue theme activeColorThemeVariable == "auto") = true := by
      rcases hauto with h | h <;> rw [h] <;> decide
    simp only [_processBackgroundColors]
    rw [publishPicked_bg_auto theme _ hb, publishPicked_orig theme _]
  · intro h1 h2
    have hb : (getThemeValue theme activeColorThemeVariable == "" ||
        getThemeValue theme activeColorThemeVariable == "auto") = false := by
      cases hb1 : getThemeValue theme activeColorThemeVariable == ""
      · cases hb2 : getThemeValue theme activeColorThemeVariable == "auto"
        · rfl
        · exact absurd (by simpa using hb2) h2
      · exact absurd (by simpa using hb1) h1
    simp only [_processBackgroundColors]
    rw [publishPicked_bg_inactive theme _ hb]

/-- C6 witness: the spec's two examples, on an empty theme store (no active
color theme): `["rgb(250,250,250)"]` (brightness 250 > 230) resolves and
publishes `"white"`; `["rgb(30,30,30)"]` resolves to itself. -/
theorem c6_background_color_resolution_witness :
    getThemeValue (_processBackgroundColors [] ["rgb(250,250,250)"])
        backgroundColorThemeVariable = "white" ∧
    getThemeValue (_processBackgroundColors [] ["rgb(30,30,30)"])
        backgroundColorThemeVariable = "rgb(30,30,30)" := by
  constructor
  · have h := c6_background_color_resolution [] ["rgb(250,250,250)"]
    have h1 := h.1 "rgb(250,250,250)" [] rfl
    have h2 := h.2.2.1 (Or.inl rfl)
    rw [h2, h1]
    decide
  · have h := c6_background_color_resolution [] ["rgb(30,30,30)"]
    have h1 := h.1 "rgb(30,30,30)" [] rfl
    have h2 := h.2.2.1 (Or.inl rfl)
    rw [h2, h1]
    decide

/-! ### Invariants of the upward walk -/

theorem processNode_seenNodes (doc : Doc) (c : Nat) (st : TraversalState) :
    (processNode doc c st).seenNodes = st.seenNodes := by
  simp only [processNode, _getNodeSelector]
  split <;> rfl

theorem processNode_addedClasses (doc : Doc) (c : Nat) (st : TraversalState) :
    (processNode doc c st).addedClasses =
      st.addedClasses ++ [(c, "container_" ++ doc.rand st.randCounter)] := by
  simp only [processNode, _getNodeSelector]
  split <;> rfl

/-- Once visited, always visited: the walk only grows the visited set. -/
theorem whileLoop_seen_mono (doc : Doc) (x : Nat) :
    ∀ fuel cur st, listHas st.seenNodes x = true →
      listHas (whileLoop doc fuel cur st).seenNodes x = true := by
  intro fuel
  induction fuel with
  | zero => intro cur st h; exact h
  | succ f ih =>
    intro cur st h
    simp only [whileLoop]
    split
    · exact h
    split
    · exact h
    split
    · simp [listHas, h]
    split
    · rw [processNode_seenNodes]
      simp [listHas, h]
    · apply ih
      rw [processNode_seenNodes]
      simp [listHas, h]

/-- The walk never marks a node twice: the visited set stays duplicate-free. -/
theorem whileLoop_noDup (doc : Doc) :
    ∀ fuel cur st, noDupB st.seenNodes = true →
      noDupB (whileLoop doc fuel cur st).seenNodes = true := by
  intro fuel
  induction fuel with
  | zero => intro cur st h; exact h
  | succ f ih =>
    intro cur st h
    simp only [whileLoop]
    split
    · exact h
    split
    · exact h
    next hseen =>
    simp only [Bool.not_eq_true] at hseen
    split
    · simp [noDupB, hseen, h]
    split
    · rw [processNode_seenNodes]
      simp [noDupB, hseen, h]
    · apply ih
      rw [processNode_seenNodes]
      simp [noDupB, hseen, h]

/-- A node already visited when the walk starts neither gains classes nor
leaves the visited set. -/
theorem whileLoop_classes_of_seen (doc : Doc) (n : Nat) :
    ∀ fuel cur st, listHas st.seenNodes n = true →
      countPairs n (whileLoop doc fuel cur st).addedClasses =
        countPairs n st.addedClasses := by
  intro fuel
  induction fuel with
  | zero => intro cur st _; rfl
  | succ f ih =>
    intro cur st h
    simp only [whileLoop]
    split
    · rfl
    split
    · rfl
    next hseen =>
    simp only [Bool.not_eq_true] at hseen
    have hne : (cur == n) = false := by
      cases hc : cur == n
      · rfl
      · have he : cur = n := by simpa using hc
        rw [he, h] at hseen
        cases hseen
    split
    · rfl
    split
    · rw [processNode_addedClasses, countPairs_append]
      simp [countPairs, hne]
    · rw [ih _ _ (by rw [processNode_seenNodes]; simp [listHas, h]),
        processNode_addedClasses, countPairs_append]
      simp [countPairs, hne]

/-- The walk never assigns a class to an aside-equivalent node: class
assignment happens only in the non-aside branch. -/
theorem whileLoop_aside_classes (doc : Doc) (e : Nat)
    (he : _isAsideEquivalent (doc.elems e) = true) :
    ∀ fuel cur st, countPairs e (whileLoop doc fuel cur st).addedClasses =
      countPairs e st.addedClasses := by
  intro fuel
  induction fuel with
  | zero => intro cur st; rfl
  | succ f ih =>
    intro cur st
    simp only [whileLoop]
    split
    · rfl
    split
    · rfl
    split
    · rfl
    next haside =>
    simp only [Bool.not_eq_true] at haside
    have hne : (cur == e) = false := by
      cases hc : cur == e
      · rfl
      · have heq : cur = e := by simpa using hc
        rw [heq, he] at haside
        cases haside
    split
    · rw [processNode_addedClasses, countPairs_append]
      simp [countPairs, hne]
    · rw [ih, processNode_addedClasses, countPairs_append]
      simp [countPairs, hne]

/-- A node not yet visited gains at most one class during the walk, and only
if the walk also marks it visited. -/
theorem whileLoop_classes_of_unseen (doc : Doc) (n : Nat) :
    ∀ fuel cur st, listHas st.seenNodes n = false →
      countPairs n (whileLoop doc fuel cur st).addedClasses ≤
        countPairs n st.addedClasses +
          (if listHas (whileLoop doc fuel cur st).seenNodes n = true then 1 else 0) := by
  intro fuel
  induction fuel with
  | zero => intro cur st _; exact Nat.le_add_right _ _
  | succ f ih =>
    intro cur st h
    simp only [whileLoop]
    split
    · exact Nat.le_add_right _ _
    split
    · exact Nat.le_add_right _ _
    split
    · exact Nat.le_add_right _ _
    split
    · -- parent is none: result is the processed state
      rw [processNode_addedClasses, countPairs_append, processNode_seenNodes]
      cases hc : cur == n
      · simp [countPairs, hc, listHas]
      · have heq : cur = n := by simpa using hc
        subst heq
        simp [countPairs, listHas]
    next par hpar =>
      -- recurse on the parent
      cases hc : cur == n
      · have hrec := ih par (processNode doc cur
          { st with seenNodes := cur :: st.seenNodes })
          (by rw [processNode_seenNodes]; simp [listHas, hc, h])
        rw [processNode_addedClasses, countPairs_append] at hrec
        simpa [countPairs, hc] using hrec
      · have heq : cur = n := by simpa using hc
        subst heq
        have hseen2 : listHas (processNode doc cur
            { st with seenNodes := cur :: st.seenNodes }).seenNodes cur = true := by
          rw [processNode_seenNodes]; simp [listHas]
        rw [whileLoop_classes_of_seen doc cur _ _ _ hseen2,
          processNode_addedClasses, countPairs_append,
          whileLoop_seen_mono doc cur _ _ _ hseen2]
        simp [countPairs]

/-- Invariant transfer through a whole walk: if a node's class count is 0
while unvisited and at most 2 in general, the same holds afterwards. -/
theorem whileLoop_classInv (doc : Doc) (n : Nat) (fuel : Nat) (cur : Nat)
    (st : TraversalState)
    (h0 : listHas st.seenNodes n = false → countPairs n st.addedClasses = 0)
    (h2 : countPairs n st.addedClasses ≤ 2) :
    (listHas (whileLoop doc fuel cur st).seenNodes n = false →
        countPairs n (whileLoop doc fuel cur st).addedClasses = 0) ∧
    countPairs n (whileLoop doc fuel cur st).addedClasses ≤ 2 := by
  cases hns : listHas st.seenNodes n
  · have hc0 := h0 hns
    have hle := whileLoop_classes_of_unseen doc n fuel cur st hns
    rw [hc0] at hle
    constructor
    · intro hs'
      rw [hs'] at hle
      simpa using hle
    · refine le_trans hle ?_
      split <;> omega
  · have hceq := whileLoop_classes_of_seen doc n fuel cur st hns
    have hmono := whileLoop_seen_mono doc n fuel cur st hns
    constructor
    · intro hs'
      rw [hmono] at hs'
      cases hs'
    · rw [hceq]; exact h2


/-- Starting the walk at an unvisited node `n` itself: the walk assigns `n`
at most one class and leaves `n` visited. -/
theorem whileLoop_fresh_elem (doc : Doc) (n : Nat) (fuel : Nat) (st : TraversalState)
    (hn : (n == doc.bodyId) = false) (hun : listHas st.seenNodes n = false) :
    countPairs n (whileLoop doc (fuel + 1) n st).addedClasses ≤
      countPairs n st.addedClasses + 1 ∧
    listHas (whileLoop doc (fuel + 1) n st).seenNodes n = true := by
  simp only [whileLoop, hn, Bool.false_eq_true, if_false, hun]
  split
  · constructor
    · exact Nat.le_add_right _ _
    · simp [listHas]
  · split
    · constructor
      · rw [processNode_addedClasses, countPairs_append]
        simp [countPairs]
      · rw [processNode_seenNodes]
        simp [listHas]
    next par hpar =>
      have hseenp : listHas (processNode doc n
          { st with seenNodes := n :: st.seenNodes }).seenNodes n = true := by
        rw [processNode_seenNodes]
        simp [listHas]
      constructor
      · rw [whileLoop_classes_of_seen doc n _ _ _ hseenp,
          processNode_addedClasses, countPairs_append]
        simp [countPairs]
      · exact whileLoop_seen_mono doc n _ _ _ hseenp

/-- Invariant transfer through `iterateParents` (needs at least one unit of
fuel so that the walk marks the leaf parent visited whenever the preamble
assigned it a `> p` class). -/
theorem iterateParents_classInv (doc : Doc) (n : Nat) (hn : (n == doc.bodyId) = false)
    (fuel : Nat) (elem : Nat) (st : TraversalState)
    (h0 : listHas st.seenNodes n = false → countPairs n st.addedClasses = 0)
    (h2 : countPairs n st.addedClasses ≤ 2) :
    (listHas (iterateParents doc (fuel + 1) elem st).seenNodes n = false →
        countPairs n (iterateParents doc (fuel + 1) elem st).addedClasses = 0) ∧
    countPairs n (iterateParents doc (fuel + 1) elem st).addedClasses ≤ 2 := by
  cases hen : elem == n
  · -- the preamble (if it runs) classes an element other than `n`
    simp only [iterateParents, _getNodeSelector]
    cases hpe : listHas st.seenNodes elem
    · simp only [Bool.false_eq_true, if_false]
      refine whileLoop_classInv doc n (fuel + 1) elem _ ?_ ?_
      · intro hs
        simp only at hs ⊢
        rw [countPairs_append]
        simp [countPairs, hen, h0 hs]
      · simp only
        rw [countPairs_append]
        simp only [countPairs, hen]
        have h2c := h2
        simp
        omega
    · simp only [if_true]
      exact whileLoop_classInv doc n _ _ _ h0 h2
  · -- the preamble may class `n` itself; the walk then marks `n` visited
    have heqn : elem = n := by simpa using hen
    rw [heqn]
    simp only [iterateParents, _getNodeSelector]
    cases hpe : listHas st.seenNodes n
    · simp only [Bool.false_eq_true, if_false]
      have hc0 : countPairs n st.addedClasses = 0 := h0 hpe
      have hfresh := whileLoop_fresh_elem doc n fuel
        { st with
            containerSelectors := st.containerSelectors ++
              [strToLower (doc.elems n).tagName ++ "." ++ ("container_" ++ doc.rand st.randCounter) ++
                (if (doc.elems n).id != "" then "[id=\x27" ++ (doc.elems n).id ++ "\x27]" else "") ++ " > p"]
            addedClasses := st.addedClasses ++ [(n, "container_" ++ doc.rand st.randCounter)]
            randCounter := st.randCounter + 1 }
        hn (by simpa using hpe)
      constructor
      · intro hs
        rw [hfresh.2] at hs
        cases hs
      · refine le_trans hfresh.1 ?_
        simp only
        rw [countPairs_append]
        simp [countPairs, hc0]
    · simp only [if_true]
      exact whileLoop_classInv doc n _ _ _ h0 h2


theorem iterateParents_noDup (doc : Doc) (fuel elem : Nat) (st : TraversalState)
    (h : noDupB st.seenNodes = true) :
    noDupB (iterateParents doc fuel elem st).seenNodes = true := by
  simp only [iterateParents, _getNodeSelector]
  cases hpe : listHas st.seenNodes elem <;>
    exact whileLoop_noDup doc fuel elem _ h

theorem iterateDOMRun_foldl_noDup (doc : Doc) (fuel : Nat) :
    ∀ (l : List Nat) (st : TraversalState), noDupB st.seenNodes = true →
      noDupB ((l.foldl (fun st p =>
        match doc.parent p with
        | none => st
        | some par => iterateParents doc fuel par st) st)).seenNodes = true := by
  intro l
  induction l with
  | nil => intro st h; exact h
  | cons p t ih =>
    intro st h
    simp only [List.foldl_cons]
    cases hp : doc.parent p
    · exact ih st h
    · exact ih _ (iterateParents_noDup doc fuel _ st h)

/-- The visited set of a full traversal is duplicate-free: no node is ever
processed twice by the upward walk. -/
theorem iterateDOMRun_noDup (doc : Doc) (fuel : Nat) (paragraphs : List Nat) :
    noDupB (iterateDOMRun doc fuel paragraphs).seenNodes = true := by
  simp only [iterateDOMRun]
  exact iterateDOMRun_foldl_noDup doc fuel _ initState rfl

theorem iterateDOMRun_foldl_classInv (doc : Doc) (n : Nat) (hn : (n == doc.bodyId) = false)
    (fuel : Nat) :
    ∀ (l : List Nat) (st : TraversalState),
      (listHas st.seenNodes n = false → countPairs n st.addedClasses = 0) →
      countPairs n st.addedClasses ≤ 2 →
      (listHas ((l.foldl (fun st p =>
          match doc.parent p with
          | none => st
          | some par => iterateParents doc (fuel + 1) par st) st)).seenNodes n = false →
        countPairs n ((l.foldl (fun st p =>
          match doc.parent p with
          | none => st
          | some par => iterateParents doc (fuel + 1) par st) st)).addedClasses = 0) ∧
      countPairs n ((l.foldl (fun st p =>
          match doc.parent p with
          | none => st
          | some par => iterateParents doc (fuel + 1) par st) st)).addedClasses ≤ 2 := by
  intro l
  induction l with
  | nil => intro st h0 h2; exact ⟨h0, h2⟩
  | cons p t ih =>
    intro st h0 h2
    simp only [List.foldl_cons]
    cases hp : doc.parent p
    · exact ih st h0 h2
    next par =>
      have hIP := iterateParents_classInv doc n hn fuel par st h0 h2
      exact ih _ hIP.1 hIP.2

/-- Across a whole traversal, every node other than the document body
carries at most two generated classes. -/
theorem iterateDOMRun_classBound (doc : Doc) (n : Nat) (hn : (n == doc.bodyId) = false)
    (fuel : Nat) (paragraphs : List Nat) :
    countPairs n (iterateDOMRun doc (fuel + 1) paragraphs).addedClasses ≤ 2 := by
  simp only [iterateDOMRun]
  exact (iterateDOMRun_foldl_classInv doc n hn fuel _ initState (fun _ => rfl)
    (Nat.zero_le 2)).2

/-! ### Termination of the upward walk -/

/-- `reachesBody doc n k`: iterating `parentElement` from `n` reaches
`document.body` within `k` steps. -/
def reachesBody (doc : Doc) : Nat → Nat → Bool
  | n, 0 => n == doc.bodyId
  | n, k + 1 =>
    n == doc.bodyId ||
      (match doc.parent n with
       | none => false
       | some p => reachesBody doc p k)

/-- The per-leaf premise of the traversal-termination theorem: the leaf's
parent element (when it exists) reaches the body within `k` steps. -/
def reachHyp (doc : Doc) (k p : Nat) : Bool :=
  match doc.parent p with
  | none => true
  | some par => reachesBody doc par k

/-- Fuel-insensitivity of the while loop: once the chain from `n` reaches
the body within `k` steps, any fuel beyond `k + 1` computes the same state —
the loop terminates. -/
theorem whileLoop_fuel_stable (doc : Doc) (m : Nat) :
    ∀ k n st, reachesBody doc n k = true →
      whileLoop doc (k + 1 + m) n st = whileLoop doc (k + 1) n st := by
  intro k
  induction k with
  | zero =>
    intro n st h
    simp only [reachesBody] at h
    have e1 : 0 + 1 + m = m + 1 := by omega
    rw [e1]
    simp [whileLoop, h]
  | succ k ih =>
    intro n st h
    have e1 : k + 1 + 1 + m = (k + 1 + m) + 1 := by omega
    rw [e1]
    simp only [whileLoop]
    cases hb : n == doc.bodyId
    · simp only [reachesBody, hb, Bool.false_or] at h
      cases hp : doc.parent n
      · rw [hp] at h
      next p =>
        rw [hp] at h
        replace h : reachesBody doc p k = true := h
        simp only [hb, Bool.false_eq_true, if_false]
        cases hs : listHas st.seenNodes n
        · simp only [hs, Bool.false_eq_true, if_false]
          split
          · rfl
          · rw [ih p _ h]
            simp only [whileLoop]
        · simp [hs]
    · simp [hb]

theorem iterateParents_fuel_stable (doc : Doc) (m k elem : Nat) (st : TraversalState)
    (h : reachesBody doc elem k = true) :
    iterateParents doc (k + 1 + m) elem st = iterateParents doc (k + 1) elem st := by
  simp only [iterateParents]
  exact whileLoop_fuel_stable doc m k elem _ h

theorem iterateDOMRun_foldl_stable (doc : Doc) (m k : Nat) :
    ∀ (l : List Nat) (st : TraversalState), (∀ p ∈ l, reachHyp doc k p = true) →
      l.foldl (fun st p =>
        match doc.parent p with
        | none => st
        | some par => iterateParents doc (k + 1 + m) par st) st =
      l.foldl (fun st p =>
        match doc.parent p with
        | none => st
        | some par => iterateParents doc (k + 1) par st) st := by
  intro l
  induction l with
  | nil => intro st _; rfl
  | cons p t ih =>
    intro st hall
    simp only [List.foldl_cons]
    have hp0 : reachHyp doc k p = true := hall p (by simp)
    have hrest : ∀ q ∈ t, reachHyp doc k q = true := fun q hq => hall q (by simp [hq])
    cases hp : doc.parent p
    · exact ih st hrest
    next par =>
      have hreach : reachesBody doc par k = true := by
        simpa [reachHyp, hp] using hp0
      rw [show (match some par with
            | none => st
            | some par => iterateParents doc (k + 1 + m) par st) =
          iterateParents doc (k + 1) par st from
        iterateParents_fuel_stable doc m k par st hreach]
      exact ih _ hrest

theorem iterateDOMRun_fuel_stable (doc : Doc) (m k : Nat) (paragraphs : List Nat)
    (h : ∀ p ∈ paragraphs, reachHyp doc k p = true) :
    iterateDOMRun doc (k + 1 + m) paragraphs = iterateDOMRun doc (k + 1) paragraphs := by
  simp only [iterateDOMRun]
  exact iterateDOMRun_foldl_stable doc m k _ initState
    (fun p hp => h p (List.mem_of_mem_filter hp))

/-! ### C8 — termination of the traversal -/

/-- C8: when every paragraph leaf's parent chain reaches the document body
(within `k` steps), the upward loop of `iterateParents` is insensitive to
any extra fuel beyond `k + 1` — it terminates with a fixed result — and
consequently the full traversal over all visible leaves computes one fixed
final state. -/
theorem c8_traversal_terminates (doc : Doc) (k m : Nat) :
    (∀ elem st, reachesBody doc elem k = true →
        iterateParents doc (k + 1 + m) elem st = iterateParents doc (k + 1) elem st) ∧
    (∀ paragraphs, (∀ p ∈ paragraphs, reachHyp doc k p = true) →
        iterateDOMRun doc (k + 1 + m) paragraphs = iterateDOMRun doc (k + 1) paragraphs) :=
  ⟨fun elem st h => iterateParents_fuel_stable doc m k elem st h,
   fun paragraphs h => iterateDOMRun_fuel_stable doc m k paragraphs h⟩

/-- C8 witness: on the concrete one-paragraph document, the chain from the
paragraph's parent (node 1) reaches the body in one step, and both the walk
and the full traversal are unchanged by extra fuel. -/
theorem c8_traversal_terminates_witness :
    reachesBody simpleDoc 1 1 = true ∧
    iterateParents simpleDoc 6 1 initState = iterateParents simpleDoc 2 1 initState ∧
    iterateDOMRun simpleDoc 6 [2] = iterateDOMRun simpleDoc 2 [2] :=
  ⟨by decide,
   (c8_traversal_terminates simpleDoc 1 4).1 1 initState (by decide),
   (c8_traversal_terminates simpleDoc 1 4).2 [2] (by decide)⟩

/-! ### C2 — aside-equivalent nodes and the walk -/

/-- C2 (amended): the upward walk never assigns a text-chain container class
to an aside-equivalent element — whatever walk is run, the element's class
count is unchanged — and the walk never continues above it: reaching an
unvisited aside-equivalent node (other than the body) only marks it visited
and stops. However, the `> p` preamble of `iterateParents` runs before any
aside check, so a paragraph leaf's aside-equivalent parent still receives a
generated class and a `selector > p` entry (see the counterexample). -/
theorem c2_aside_boundary (doc : Doc) (e : Nat)
    (he : _isAsideEquivalent (doc.elems e) = true) :
    (∀ fuel st, (e == doc.bodyId) = false → listHas st.seenNodes e = false →
        whileLoop doc (fuel + 1) e st = { st with seenNodes := e :: st.seenNodes }) ∧
    (∀ fuel cur st, countPairs e (whileLoop doc fuel cur st).addedClasses =
        countPairs e st.addedClasses) :=
  ⟨fun fuel st hb hs => by simp [whileLoop, hb, hs, he],
   fun fuel cur st => whileLoop_aside_classes doc e he fuel cur st⟩

/-- C2 witness: node 1 of `asideDoc` (className "sidebar") is
aside-equivalent; the walk started at it from a fresh state marks it visited
and stops, assigning no class. -/
theorem c2_aside_boundary_witness :
    whileLoop asideDoc 4 1 initState = { initState with seenNodes := [1] } ∧
    countPairs 1 (whileLoop asideDoc 9 1 initState).addedClasses =
      countPairs 1 initState.addedClasses :=
  ⟨(c2_aside_boundary asideDoc 1 (by decide)).1 3 initState (by decide) (by decide),
   (c2_aside_boundary asideDoc 1 (by decide)).2 9 1 initState⟩

/-- C2 counterexample: in `asideDoc` the paragraph leaf's parent (node 1) is
aside-equivalent, yet the traversal records the `div.container_0 > p`
text-chain entry for it and adds the generated class `container_0` to it —
the `> p` preamble runs before the aside check, contradicting the claim that
aside-equivalent elements never appear among the collected container
selectors. -/
theorem c2_counterexample :
    _isAsideEquivalent (asideDoc.elems 1) = true ∧
    (iterateDOMRun asideDoc 4 [2]).containerSelectors = ["div.container_0 > p"] ∧
    (iterateDOMRun asideDoc 4 [2]).addedClasses = [(1, "container_0")] := by
  refine ⟨by decide, by decide, by decide⟩

/-! ### C5 — deduplication of shared ancestors -/

/-- C5 (amended): during one traversal the visited set never receives a node
twice (the walk processes each shared ancestor at most once), and every node
other than the document body accumulates at most two generated classes: at
most one from the `selector > p` leaf-parent preamble and at most one as a
text-chain container from the walk itself. -/
theorem c5_shared_ancestor_dedup (doc : Doc) (fuel : Nat) (paragraphs : List Nat) (n : Nat)
    (hn : (n == doc.bodyId) = false) :
    countPairs n (iterateDOMRun doc (fuel + 1) paragraphs).addedClasses ≤ 2 ∧
    noDupB (iterateDOMRun doc (fuel + 1) paragraphs).seenNodes = true :=
  ⟨iterateDOMRun_classBound doc n hn fuel paragraphs,
   iterateDOMRun_noDup doc (fuel + 1) paragraphs⟩

/-- C5 witness: on the two-sibling-paragraph document the shared parent
(node 1) carries at most two generated classes and the visited set is
duplicate-free. -/
theorem c5_shared_ancestor_dedup_witness :
    countPairs 1 (iterateDOMRun sibDoc 4 [2, 3]).addedClasses ≤ 2 ∧
    noDupB (iterateDOMRun sibDoc 4 [2, 3]).seenNodes = true :=
  c5_shared_ancestor_dedup sibDoc 3 [2, 3] 1 (by decide)

/-- C5 counterexample: two sibling paragraphs (leaves 2 and 3) share their
direct parent, node 1. That shared ancestor receives **two** generated
selectors in one traversal — `container_0` for the `div.container_0 > p`
child rule and `container_1` as a text-chain container — not exactly one as
claimed. -/
theorem c5_counterexample :
    countPairs 1 (iterateDOMRun sibDoc 4 [2, 3]).addedClasses = 2 ∧
    (iterateDOMRun sibDoc 4 [2, 3]).containerSelectors =
      ["div.container_0 > p", "div.container_1"] := by
  refine ⟨by decide, by decide⟩

end Unclutter
